import Mathlib

/-!
Verification of the Boloform signature-injection engine.

Shallow embedding of the core coordinate transformations, the aspect-fit
algorithm, the field-position validation, and the hash-chain audit log of
the signing routes.  Numeric values are modelled as exact rationals (the
source computes with JS numbers; every claim checked here is either exact
rational arithmetic or explicitly about the IEEE special values, for which
a dedicated value domain `JSVal` is used).
-/

/-- A normalized position: components of the percentage record produced by
the editing UI and consumed by the transforms (`xPercent` .. `heightPercent`
in `src/frontend/src/utils/CoordinateTransformer.js` and
`src/backend/utils/pdfUtils.js`). -/
structure NormalizedPosition where
  xPercent : ℚ
  yPercent : ℚ
  widthPercent : ℚ
  heightPercent : ℚ
deriving DecidableEq

/-- A rectangle in PDF points, origin bottom-left (the return value of
`transformToPdfCoordinates`). -/
structure PdfCoordinates where
  x : ℚ
  y : ℚ
  width : ℚ
  height : ℚ
deriving DecidableEq

/-- Embedding of `transformToPdfCoordinates` from
`src/backend/utils/pdfUtils.js` (lines 23-45): scale the percentages by the
page dimensions and flip the Y axis. -/
def transformToPdfCoordinates (position : NormalizedPosition)
    (pdfWidth pdfHeight : ℚ) : PdfCoordinates :=
  let pdfX := position.xPercent * pdfWidth
  let pdfBoxWidth := position.widthPercent * pdfWidth
  let pdfBoxHeight := position.heightPercent * pdfHeight
  let pdfY := pdfHeight - position.yPercent * pdfHeight - pdfBoxHeight
  { x := pdfX, y := pdfY, width := pdfBoxWidth, height := pdfBoxHeight }

/-- The result record of `containImageInBox` (fitted size plus centering
offsets). -/
structure FitResult where
  width : ℚ
  height : ℚ
  offsetX : ℚ
  offsetY : ℚ
deriving DecidableEq

/-- Embedding of `containImageInBox` from `src/backend/utils/pdfUtils.js`
(lines 56-79): object-fit contain, comparing the image ratio against the
box ratio and centering the result. -/
def containImageInBox (imgWidth imgHeight boxWidth boxHeight : ℚ) : FitResult :=
  let imgRatio := imgWidth / imgHeight
  let boxRatio := boxWidth / boxHeight
  let fit : ℚ × ℚ :=
    if imgRatio > boxRatio then
      (boxWidth, boxWidth / imgRatio)
    else
      (boxHeight * imgRatio, boxHeight)
  { width := fit.1, height := fit.2,
    offsetX := (boxWidth - fit.1) / 2,
    offsetY := (boxHeight - fit.2) / 2 }

/-- A rectangle in browser pixels, origin top-left. -/
structure BrowserRect where
  x : ℚ
  y : ℚ
  width : ℚ
  height : ℚ
deriving DecidableEq

/-- Embedding of `browserToNormalized` from
`src/frontend/src/utils/CoordinateTransformer.js` (lines 25-35): divide the
pixel rectangle by the container size. -/
def browserToNormalized (browserX browserY browserWidth browserHeight
    containerWidth containerHeight : ℚ) : NormalizedPosition :=
  { xPercent := browserX / containerWidth,
    yPercent := browserY / containerHeight,
    widthPercent := browserWidth / containerWidth,
    heightPercent := browserHeight / containerHeight }

/-- Embedding of `normalizedToBrowser` from
`src/frontend/src/utils/CoordinateTransformer.js` (lines 51-58): multiply
the percentages by the container size. -/
def normalizedToBrowser (normalized : NormalizedPosition)
    (containerWidth containerHeight : ℚ) : BrowserRect :=
  { x := normalized.xPercent * containerWidth,
    y := normalized.yPercent * containerHeight,
    width := normalized.widthPercent * containerWidth,
    height := normalized.heightPercent * containerHeight }

/-- Embedding of `clampPosition` from
`src/frontend/src/utils/CoordinateTransformer.js` (lines 67-74).  Note the
width/height components are clamped against the ORIGINAL `xPercent` /
`yPercent` of the input, not against the already-clamped offsets. -/
def clampPosition (position : NormalizedPosition) : NormalizedPosition :=
  { xPercent := max 0 (min position.xPercent (1 - position.widthPercent)),
    yPercent := max 0 (min position.yPercent (1 - position.heightPercent)),
    widthPercent := min position.widthPercent (1 - position.xPercent),
    heightPercent := min position.heightPercent (1 - position.yPercent) }

/-- C1: the normalized-to-PDF transformation scales x/width/height linearly
by the page dimensions and inverts the vertical axis,
`y = pageHeight - yPercent * pageHeight - heightPercent * pageHeight`; in
particular on a page of height 800 a field with `yPercent = 0`,
`heightPercent = 0.1` lands at `y = 720` and a field with `yPercent = 0.9`,
`heightPercent = 0.1` lands at `y = 0`. -/
theorem transformToPdfCoordinates_spec (p : NormalizedPosition) (pw ph : ℚ) :
    transformToPdfCoordinates p pw ph =
      { x := p.xPercent * pw,
        y := ph - p.yPercent * ph - p.heightPercent * ph,
        width := p.widthPercent * pw,
        height := p.heightPercent * ph } ∧
    (transformToPdfCoordinates ⟨p.xPercent, 0, p.widthPercent, 1/10⟩ pw 800).y = 720 ∧
    (transformToPdfCoordinates ⟨p.xPercent, 9/10, p.widthPercent, 1/10⟩ pw 800).y = 0 := by
  refine ⟨rfl, ?_, ?_⟩ <;> simp [transformToPdfCoordinates] <;> norm_num

/-- The end-to-end scenario position of spec section 8:
`{xPercent: 0.1, yPercent: 0.8, widthPercent: 0.3, heightPercent: 0.1}`. -/
def scenarioPosition : NormalizedPosition := ⟨1/10, 4/5, 3/10, 1/10⟩

/-- C4 counterexample: on the 595 x 842 page the scenario field does NOT land
at `y = 0`; the transformation puts it at `y = 842 - 0.8*842 - 0.1*842 = 84.2`
(a value of 0 would require `yPercent = 0.9`). -/
theorem scenario_y_not_zero :
    (transformToPdfCoordinates scenarioPosition 595 842).y ≠ 0 := by
  norm_num [transformToPdfCoordinates, scenarioPosition]

/-- C4 amended: the 595 x 842 scenario yields the target rectangle
`{x: 59.5, y: 84.2, width: 178.5, height: 84.2}`; aspect-fitting the 300 x 100
asset into that rectangle fills the box width exactly (178.5) with fitted
height 59.5, horizontal offset 0 and vertical offset 12.35 (the box ratio is
178.5/84.2, about 2.12, so the 3:1 asset is width-constrained but does not
fill the height). -/
theorem scenario_transform_and_fit :
    transformToPdfCoordinates scenarioPosition 595 842 =
      ⟨119/2, 421/5, 357/2, 421/5⟩ ∧
    containImageInBox 300 100
        (transformToPdfCoordinates scenarioPosition 595 842).width
        (transformToPdfCoordinates scenarioPosition 595 842).height =
      ⟨357/2, 119/2, 0, 247/20⟩ := by
  norm_num [transformToPdfCoordinates, containImageInBox, scenarioPosition]

/-- C5: for strictly positive asset and box dimensions, the aspect-fit result
preserves the asset's width:height ratio exactly, never exceeds the box in
either dimension, and its offsets center the fitted rectangle in the box. -/
theorem containImageInBox_spec (imgWidth imgHeight boxWidth boxHeight : ℚ)
    (hiw : 0 < imgWidth) (hih : 0 < imgHeight)
    (hbw : 0 < boxWidth) (hbh : 0 < boxHeight) :
    (containImageInBox imgWidth imgHeight boxWidth boxHeight).width /
      (containImageInBox imgWidth imgHeight boxWidth boxHeight).height =
      imgWidth / imgHeight ∧
    (containImageInBox imgWidth imgHeight boxWidth boxHeight).width ≤ boxWidth ∧
    (containImageInBox imgWidth imgHeight boxWidth boxHeight).height ≤ boxHeight ∧
    (containImageInBox imgWidth imgHeight boxWidth boxHeight).offsetX =
      (boxWidth - (containImageInBox imgWidth imgHeight boxWidth boxHeight).width) / 2 ∧
    (containImageInBox imgWidth imgHeight boxWidth boxHeight).offsetY =
      (boxHeight - (containImageInBox imgWidth imgHeight boxWidth boxHeight).height) / 2 := by
  have hihne : imgHeight ≠ 0 := hih.ne'
  have hbhne : boxHeight ≠ 0 := hbh.ne'
  have hratio : 0 < imgWidth / imgHeight := div_pos hiw hih
  simp only [containImageInBox]
  split_ifs with hc
  · refine ⟨?_, le_refl _, ?_, trivial, trivial⟩
    · field_simp
      ring
    · rw [div_le_iff₀ hratio]
      have h3 : boxWidth < imgWidth / imgHeight * boxHeight := (div_lt_iff₀ hbh).mp hc
      rw [mul_comm] at h3
      exact h3.le
  · push_neg at hc
    refine ⟨?_, ?_, le_refl _, trivial, trivial⟩
    · exact mul_div_cancel_left₀ _ hbhne
    · have h3 : imgWidth / imgHeight * boxHeight ≤ boxWidth := (le_div_iff₀ hbh).mp hc
      rw [mul_comm] at h3
      exact h3

/-- C5 witness: the aspect-fit guarantees instantiated at a 300 x 100 asset in
a 600 x 100 box. -/
theorem containImageInBox_spec_witness :
    (0:ℚ) < 300 ∧ (0:ℚ) < 100 ∧ (0:ℚ) < 600 ∧
    ((containImageInBox 300 100 600 100).width /
        (containImageInBox 300 100 600 100).height = 300 / 100 ∧
      (containImageInBox 300 100 600 100).width ≤ 600 ∧
      (containImageInBox 300 100 600 100).height ≤ 100 ∧
      (containImageInBox 300 100 600 100).offsetX =
        (600 - (containImageInBox 300 100 600 100).width) / 2 ∧
      (containImageInBox 300 100 600 100).offsetY =
        (100 - (containImageInBox 300 100 600 100).height) / 2) :=
  ⟨by decide, by decide, by decide,
    containImageInBox_spec 300 100 600 100 (by decide) (by decide) (by decide) (by decide)⟩

/-- C6: converting a pixel rectangle to normalized percentages and back with
the same strictly positive container size returns the original rectangle
(exactly, over the rationals). -/
theorem browser_roundTrip (r : BrowserRect) (containerWidth containerHeight : ℚ)
    (hcw : 0 < containerWidth) (hch : 0 < containerHeight) :
    normalizedToBrowser
      (browserToNormalized r.x r.y r.width r.height containerWidth containerHeight)
      containerWidth containerHeight = r := by
  have h1 : containerWidth ≠ 0 := hcw.ne'
  have h2 : containerHeight ≠ 0 := hch.ne'
  cases r with
  | mk x y w h =>
    simp [normalizedToBrowser, browserToNormalized, div_mul_cancel₀, h1, h2]

/-- C6 witness: round trip of the rectangle (5, 7, 11, 13) through a 2 x 4
container. -/
theorem browser_roundTrip_witness :
    normalizedToBrowser
      (browserToNormalized (BrowserRect.mk 5 7 11 13).x (BrowserRect.mk 5 7 11 13).y
        (BrowserRect.mk 5 7 11 13).width (BrowserRect.mk 5 7 11 13).height 2 4)
      2 4 = BrowserRect.mk 5 7 11 13 :=
  browser_roundTrip (BrowserRect.mk 5 7 11 13) 2 4 (by decide) (by decide)

/-- Helper for the clamp analysis: one axis (offset, size) of `clampPosition`.
With both components in [0, 1] the clamped pair is a fixed point of the clamp
and its sum is at most 1. -/
theorem clamp_axis (x w : ℚ) (hx0 : 0 ≤ x) (hx1 : x ≤ 1) (hw0 : 0 ≤ w)
    (hw1 : w ≤ 1) :
    max 0 (min (max 0 (min x (1 - w))) (1 - min w (1 - x))) =
      max 0 (min x (1 - w)) ∧
    min (min w (1 - x)) (1 - max 0 (min x (1 - w))) = min w (1 - x) ∧
    max 0 (min x (1 - w)) + min w (1 - x) ≤ 1 := by
  simp only [min_def, max_def]
  split_ifs <;> refine ⟨by linarith, by linarith, by linarith⟩

/-- A position whose components lie outside [0, 1]; clamping it once leaves
`widthPercent = 3/2` (clamped against the original `xPercent = -1/2`), so a
second clamp still changes it. -/
def outOfBoundsPosition : NormalizedPosition := ⟨-(1/2), 0, 3/2, 1/2⟩

/-- C3 counterexample: on positions with components outside [0, 1],
`clampPosition` is NOT idempotent and its result can violate the sum bound,
because the width/height components are clamped against the original
(unclamped) offsets.  At
`{xPercent: -0.5, yPercent: 0, widthPercent: 1.5, heightPercent: 0.5}` the
first clamp returns `xPercent = 0` with `widthPercent = 1.5` — so
`xPercent + widthPercent = 1.5 > 1` — and the second clamp reduces the
width to 1. -/
theorem clampPosition_not_idempotent :
    clampPosition (clampPosition outOfBoundsPosition) ≠
      clampPosition outOfBoundsPosition ∧
    (clampPosition outOfBoundsPosition).xPercent +
      (clampPosition outOfBoundsPosition).widthPercent > 1 := by
  constructor
  · intro hcontra
    have hw := congrArg NormalizedPosition.widthPercent hcontra
    norm_num [clampPosition, outOfBoundsPosition, min_def, max_def] at hw
  · norm_num [clampPosition, outOfBoundsPosition, min_def, max_def]

/-- C3 amended: for EVERY position — components in range or not —
`clampPosition` never increases `widthPercent` or `heightPercent`; and for
positions whose four components lie in [0, 1], it is additionally idempotent
and never returns a position with `xPercent + widthPercent > 1` or
`yPercent + heightPercent > 1` (outside [0, 1] those two properties fail,
as the counterexample shows). -/
theorem clampPosition_wellBehaved (p : NormalizedPosition) :
    (clampPosition p).widthPercent ≤ p.widthPercent ∧
    (clampPosition p).heightPercent ≤ p.heightPercent ∧
    ((0 ≤ p.xPercent ∧ p.xPercent ≤ 1 ∧ 0 ≤ p.yPercent ∧ p.yPercent ≤ 1 ∧
        0 ≤ p.widthPercent ∧ p.widthPercent ≤ 1 ∧
        0 ≤ p.heightPercent ∧ p.heightPercent ≤ 1) →
      clampPosition (clampPosition p) = clampPosition p ∧
      (clampPosition p).xPercent + (clampPosition p).widthPercent ≤ 1 ∧
      (clampPosition p).yPercent + (clampPosition p).heightPercent ≤ 1) := by
  refine ⟨min_le_left _ _, min_le_left _ _, ?_⟩
  rintro ⟨hx0, hx1, hy0, hy1, hw0, hw1, hh0, hh1⟩
  have hxw := clamp_axis p.xPercent p.widthPercent hx0 hx1 hw0 hw1
  have hyh := clamp_axis p.yPercent p.heightPercent hy0 hy1 hh0 hh1
  simp only [clampPosition, NormalizedPosition.mk.injEq]
  exact ⟨⟨hxw.1, hyh.1, hxw.2.1, hyh.2.1⟩, hxw.2.2, hyh.2.2⟩

/-- C3 witness: the amended clamp properties at the in-range position
(0, 0, 1, 1), with the in-range implication discharged. -/
theorem clampPosition_wellBehaved_witness :
    (clampPosition ⟨0, 0, 1, 1⟩).widthPercent ≤
      (NormalizedPosition.mk 0 0 1 1).widthPercent ∧
    (clampPosition ⟨0, 0, 1, 1⟩).heightPercent ≤
      (NormalizedPosition.mk 0 0 1 1).heightPercent ∧
    (clampPosition (clampPosition ⟨0, 0, 1, 1⟩) = clampPosition ⟨0, 0, 1, 1⟩ ∧
      (clampPosition ⟨0, 0, 1, 1⟩).xPercent +
        (clampPosition ⟨0, 0, 1, 1⟩).widthPercent ≤ 1 ∧
      (clampPosition ⟨0, 0, 1, 1⟩).yPercent +
        (clampPosition ⟨0, 0, 1, 1⟩).heightPercent ≤ 1) :=
  ⟨(clampPosition_wellBehaved ⟨0, 0, 1, 1⟩).1,
   (clampPosition_wellBehaved ⟨0, 0, 1, 1⟩).2.1,
   (clampPosition_wellBehaved ⟨0, 0, 1, 1⟩).2.2
     ⟨by decide, by decide, by decide, by decide, by decide, by decide,
      by decide, by decide⟩⟩

/-- An oversize position whose offset is nonzero:
`{xPercent: 0.2, yPercent: 0, widthPercent: 1.5, heightPercent: 0.5}`. -/
def shiftedOversizePosition : NormalizedPosition := ⟨1/5, 0, 3/2, 1/2⟩

/-- C8 counterexample: for `widthPercent = 1.5 ≥ 1` with `xPercent = 0.2`,
`clampPosition` does NOT cap the width to exactly 1: the width is clamped
against the original offset, giving `min 1.5 (1 - 0.2) = 0.8`. -/
theorem clampPosition_oversize_not_one :
    1 ≤ shiftedOversizePosition.widthPercent ∧
    (clampPosition shiftedOversizePosition).widthPercent ≠ 1 := by
  constructor <;> norm_num [clampPosition, shiftedOversizePosition, min_def, max_def]

/-- C8 amended: when `widthPercent ≥ 1` the clamp forces `xPercent` to 0 and
sets the width to `min widthPercent (1 - xPercent)` — the cap is taken
against the ORIGINAL offset, so it equals exactly 1 only when the original
`xPercent` is 0; symmetrically for `heightPercent`/`yPercent`. -/
theorem clampPosition_oversize (p : NormalizedPosition) :
    (1 ≤ p.widthPercent →
      (clampPosition p).xPercent = 0 ∧
      (clampPosition p).widthPercent = min p.widthPercent (1 - p.xPercent) ∧
      (p.xPercent = 0 → (clampPosition p).widthPercent = 1)) ∧
    (1 ≤ p.heightPercent →
      (clampPosition p).yPercent = 0 ∧
      (clampPosition p).heightPercent = min p.heightPercent (1 - p.yPercent) ∧
      (p.yPercent = 0 → (clampPosition p).heightPercent = 1)) := by
  constructor
  · intro hw
    refine ⟨?_, rfl, ?_⟩
    · have hmin : min p.xPercent (1 - p.widthPercent) ≤ 0 :=
        le_trans (min_le_right _ _) (by linarith)
      exact max_eq_left hmin
    · intro hx
      show min p.widthPercent (1 - p.xPercent) = 1
      rw [hx]
      norm_num
      exact hw
  · intro hh
    refine ⟨?_, rfl, ?_⟩
    · have hmin : min p.yPercent (1 - p.heightPercent) ≤ 0 :=
        le_trans (min_le_right _ _) (by linarith)
      exact max_eq_left hmin
    · intro hy
      show min p.heightPercent (1 - p.yPercent) = 1
      rw [hy]
      norm_num
      exact hh

/-- C8 witness: the amended oversize behaviour at `(0, 0, 2, 3)`: both
offsets become 0 and both dimensions become exactly 1. -/
theorem clampPosition_oversize_witness :
    (clampPosition ⟨0, 0, 2, 3⟩).xPercent = 0 ∧
    (clampPosition ⟨0, 0, 2, 3⟩).widthPercent = 1 ∧
    (clampPosition ⟨0, 0, 2, 3⟩).yPercent = 0 ∧
    (clampPosition ⟨0, 0, 2, 3⟩).heightPercent = 1 :=
  ⟨((clampPosition_oversize ⟨0, 0, 2, 3⟩).1 (by decide)).1,
   ((clampPosition_oversize ⟨0, 0, 2, 3⟩).1 (by decide)).2.2 (by decide),
   ((clampPosition_oversize ⟨0, 0, 2, 3⟩).2 (by decide)).1,
   ((clampPosition_oversize ⟨0, 0, 2, 3⟩).2 (by decide)).2.2 (by decide)⟩

/-- A JS number restricted to the values the sources can produce: an exact
rational, the two infinities, or NaN.  Used to express what the unvalidated
divisions in `browserToNormalized` and `containImageInBox` actually return
on degenerate input (the rational model above is exact only away from zero
denominators).  The two IEEE signed zeros are merged. -/
inductive JSVal where
  | num (q : ℚ)
  | posInf
  | negInf
  | nan
deriving DecidableEq

/-- IEEE division as JS performs it on these values: a finite value divided
by zero gives a signed infinity (NaN for 0/0), division by an infinity gives
zero, an infinity divided by a finite value stays infinite. -/
def jsDiv : JSVal → JSVal → JSVal
  | .num a, .num b =>
      if b ≠ 0 then .num (a / b)
      else if 0 < a then .posInf
      else if a < 0 then .negInf
      else .nan
  | .num _, .posInf => .num 0
  | .num _, .negInf => .num 0
  | .posInf, .num b => if 0 ≤ b then .posInf else .negInf
  | .negInf, .num b => if 0 ≤ b then .negInf else .posInf
  | _, _ => .nan

/-- IEEE multiplication on these values (`infinity * 0` is NaN). -/
def jsMul : JSVal → JSVal → JSVal
  | .num a, .num b => .num (a * b)
  | .num a, .posInf => if 0 < a then .posInf else if a < 0 then .negInf else .nan
  | .posInf, .num b => if 0 < b then .posInf else if b < 0 then .negInf else .nan
  | .num a, .negInf => if 0 < a then .negInf else if a < 0 then .posInf else .nan
  | .negInf, .num b => if 0 < b then .negInf else if b < 0 then .posInf else .nan
  | .posInf, .posInf => .posInf
  | .posInf, .negInf => .negInf
  | .negInf, .posInf => .negInf
  | .negInf, .negInf => .posInf
  | _, _ => .nan

/-- IEEE subtraction on these values (`infinity - infinity` is NaN). -/
def jsSub : JSVal → JSVal → JSVal
  | .num a, .num b => .num (a - b)
  | .num _, .posInf => .negInf
  | .num _, .negInf => .posInf
  | .posInf, .num _ => .posInf
  | .negInf, .num _ => .negInf
  | .posInf, .negInf => .posInf
  | .negInf, .posInf => .negInf
  | _, _ => .nan

/-- The JS `>` comparison on these values: any comparison with NaN is false. -/
def jsGt : JSVal → JSVal → Bool
  | .nan, _ => false
  | _, .nan => false
  | .posInf, .posInf => false
  | .posInf, _ => true
  | _, .posInf => false
  | .negInf, _ => false
  | _, .negInf => true
  | .num a, .num b => decide (b < a)

/-- The record returned by `browserToNormalized`, over JS number values. -/
structure NormalizedPositionJS where
  xPercent : JSVal
  yPercent : JSVal
  widthPercent : JSVal
  heightPercent : JSVal
deriving DecidableEq

/-- The record returned by `containImageInBox`, over JS number values. -/
structure FitResultJS where
  width : JSVal
  height : JSVal
  offsetX : JSVal
  offsetY : JSVal
deriving DecidableEq

/-- Embedding of `browserToNormalized` over the JS value domain: the source
performs the four divisions with no precondition check on the container
size. -/
def browserToNormalizedJS (browserX browserY browserWidth browserHeight
    containerWidth containerHeight : ℚ) : NormalizedPositionJS :=
  { xPercent := jsDiv (.num browserX) (.num containerWidth),
    yPercent := jsDiv (.num browserY) (.num containerHeight),
    widthPercent := jsDiv (.num browserWidth) (.num containerWidth),
    heightPercent := jsDiv (.num browserHeight) (.num containerHeight) }

/-- Embedding of `containImageInBox` over the JS value domain: the ratios
are formed with no precondition check on `imgHeight` or `boxHeight`. -/
def containImageInBoxJS (imgWidth imgHeight boxWidth boxHeight : ℚ) :
    FitResultJS :=
  let imgRatio := jsDiv (.num imgWidth) (.num imgHeight)
  let boxRatio := jsDiv (.num boxWidth) (.num boxHeight)
  let fit : JSVal × JSVal :=
    if jsGt imgRatio boxRatio then
      (.num boxWidth, jsDiv (.num boxWidth) imgRatio)
    else
      (jsMul (.num boxHeight) imgRatio, .num boxHeight)
  { width := fit.1, height := fit.2,
    offsetX := jsDiv (jsSub (.num boxWidth) fit.1) (.num 2),
    offsetY := jsDiv (jsSub (.num boxHeight) fit.2) (.num 2) }

/-- C7 counterexample: `browserToNormalized` does NOT reject a container of
zero width/height — there is no precondition check in the source — and with
container size 0 x 0 it silently returns Infinity in every component (the
very division artifact the claim says is rejected). -/
theorem browserToNormalizedJS_zero_container :
    browserToNormalizedJS 1 1 1 1 0 0 =
      ⟨JSVal.posInf, JSVal.posInf, JSVal.posInf, JSVal.posInf⟩ := by decide

/-- C7 amended: neither function validates its inputs.  For a pixel
rectangle with positive components, a container width of 0 makes
`browserToNormalized` return Infinity for `xPercent` and `widthPercent`;
`containImageInBox` with `imgHeight = 0` (other dimensions positive)
silently returns the degenerate rectangle (boxWidth, 0, 0, boxHeight/2),
and with `boxHeight = 0` the degenerate rectangle (0, 0, boxWidth/2, 0) —
division artifacts propagate instead of being rejected. -/
theorem js_division_artifacts (bx bw iw ih boxW boxH ch : ℚ)
    (hbx : 0 < bx) (hbw : 0 < bw) (hiw : 0 < iw) (hih : 0 < ih)
    (hboxW : 0 < boxW) (hboxH : 0 < boxH) :
    (browserToNormalizedJS bx 0 bw 0 0 ch).xPercent = JSVal.posInf ∧
    (browserToNormalizedJS bx 0 bw 0 0 ch).widthPercent = JSVal.posInf ∧
    containImageInBoxJS iw 0 boxW boxH =
      ⟨JSVal.num boxW, JSVal.num 0, JSVal.num 0, JSVal.num (boxH / 2)⟩ ∧
    containImageInBoxJS iw ih boxW 0 =
      ⟨JSVal.num 0, JSVal.num 0, JSVal.num (boxW / 2), JSVal.num 0⟩ := by
  refine ⟨?_, ?_, ?_, ?_⟩
  · simp [browserToNormalizedJS, jsDiv, hbx]
  · simp [browserToNormalizedJS, jsDiv, hbw]
  · simp [containImageInBoxJS, jsDiv, jsGt, jsMul, jsSub, hiw, hboxH.ne']
  · simp [containImageInBoxJS, jsDiv, jsGt, jsMul, jsSub, hboxW, hih.ne']

/-- C7 witness: the division artifacts at concrete inputs — a 1 x 1 rectangle
against a width-0 container, a 3 x 0 asset in a 6 x 2 box, and a 3 x 1 asset
in a 6 x 0 box. -/
theorem js_division_artifacts_witness :
    (browserToNormalizedJS 1 0 1 0 0 0).xPercent = JSVal.posInf ∧
    (browserToNormalizedJS 1 0 1 0 0 0).widthPercent = JSVal.posInf ∧
    containImageInBoxJS 3 0 6 2 =
      ⟨JSVal.num 6, JSVal.num 0, JSVal.num 0, JSVal.num (2 / 2)⟩ ∧
    containImageInBoxJS 3 1 6 0 =
      ⟨JSVal.num 0, JSVal.num 0, JSVal.num (6 / 2), JSVal.num 0⟩ :=
  js_division_artifacts 1 1 3 1 6 2 0 (by decide) (by decide) (by decide)
    (by decide) (by decide) (by decide)

/-- A field position as stored by the backend (src/backend/models/Field.js),
including its page number. -/
structure FieldPosition where
  pageNumber : ℕ
  xPercent : ℚ
  yPercent : ℚ
  widthPercent : ℚ
  heightPercent : ℚ
deriving DecidableEq

/-- The position check of the field routes (src/backend/routes/fields.js
lines 37-40 and 97-100):
`[xPercent, yPercent, widthPercent, heightPercent].some(v => v < 0 || v > 1)`. -/
def positionOutOfRange (position : FieldPosition) : Bool :=
  [position.xPercent, position.yPercent, position.widthPercent,
      position.heightPercent].any
    (fun v => decide (v < 0) || decide (v > 1))

/-- Embedding of the position handling of POST /api/fields: reject with a
400 validation error when a percentage is out of [0, 1], otherwise store the
position unchanged. -/
def createFieldPosition (position : FieldPosition) : Except String FieldPosition :=
  if positionOutOfRange position then
    .error "Position percentages must be between 0 and 1"
  else
    .ok position

/-- Embedding of the position handling of PUT /api/fields/:id, which repeats
the identical check before assigning `field.position`. -/
def updateFieldPosition (position : FieldPosition) : Except String FieldPosition :=
  if positionOutOfRange position then
    .error "Position percentages must be between 0 and 1"
  else
    .ok position

/-- A position whose components are each in [0, 1] but which extends past
the page on both axes. -/
def overhangingPosition : FieldPosition := ⟨1, 1, 1, 1, 1⟩

/-- C9 counterexample: the routes only check each percentage against [0, 1];
a position with `xPercent + widthPercent = 2 > 1` and
`yPercent + heightPercent = 2 > 1` is accepted and stored by both the create
and the update route, violating the claimed data-model invariant. -/
theorem fieldPosition_overhang_accepted :
    createFieldPosition overhangingPosition = Except.ok overhangingPosition ∧
    updateFieldPosition overhangingPosition = Except.ok overhangingPosition ∧
    overhangingPosition.xPercent + overhangingPosition.widthPercent > 1 ∧
    overhangingPosition.yPercent + overhangingPosition.heightPercent > 1 := by
  refine ⟨rfl, rfl, by norm_num [overhangingPosition], by norm_num [overhangingPosition]⟩

/-- C9 amended: the positions accepted by field creation and update are
exactly those with every component in [0, 1] — any other position is
rejected with the validation error — and the update route performs the same
check as the create route.  The sum constraints `xPercent + widthPercent ≤ 1`
and `yPercent + heightPercent ≤ 1` are NOT enforced. -/
theorem fieldPosition_validation (p : FieldPosition) :
    (createFieldPosition p = Except.ok p ↔
      (0 ≤ p.xPercent ∧ p.xPercent ≤ 1 ∧ 0 ≤ p.yPercent ∧ p.yPercent ≤ 1 ∧
       0 ≤ p.widthPercent ∧ p.widthPercent ≤ 1 ∧
       0 ≤ p.heightPercent ∧ p.heightPercent ≤ 1)) ∧
    (createFieldPosition p ≠ Except.ok p →
      createFieldPosition p =
        Except.error "Position percentages must be between 0 and 1") ∧
    updateFieldPosition p = createFieldPosition p := by
  have hiff : positionOutOfRange p = false ↔
      (0 ≤ p.xPercent ∧ p.xPercent ≤ 1 ∧ 0 ≤ p.yPercent ∧ p.yPercent ≤ 1 ∧
       0 ≤ p.widthPercent ∧ p.widthPercent ≤ 1 ∧
       0 ≤ p.heightPercent ∧ p.heightPercent ≤ 1) := by
    simp [positionOutOfRange, not_lt]
    tauto
  refine ⟨?_, ?_, rfl⟩
  · constructor
    · intro hok
      apply hiff.mp
      by_contra htrue
      rw [Bool.not_eq_false] at htrue
      simp [createFieldPosition, htrue] at hok
    · intro hprops
      simp [createFieldPosition, hiff.mpr hprops]
  · intro hne
    cases h : positionOutOfRange p
    · exact absurd (by simp [createFieldPosition, h]) hne
    · simp [createFieldPosition, h]

/-- C9 witness: the validation at a position with `xPercent = 2`: it is not
accepted, so it is rejected with the validation error. -/
theorem fieldPosition_validation_witness :
    createFieldPosition ⟨1, 2, 0, 0, 0⟩ =
      Except.error "Position percentages must be between 0 and 1" :=
  (fieldPosition_validation ⟨1, 2, 0, 0, 0⟩).2.1 (fun h => nomatch h)

/-- The field types of the Field schema (src/backend/models/Field.js). -/
inductive FieldType where
  | signature
  | text
  | date
  | checkbox
  | radio
  | image
deriving DecidableEq

/-- A field record: the parts of the Field document the routes read and
write (label is omitted; it never affects signing or the audit chain).
`value` is an opaque payload identifier — `none` models an unset value. -/
structure FieldRec where
  fieldType : FieldType
  position : FieldPosition
  value : Option Nat
  required : Bool
deriving DecidableEq

/-- The audit actions of the AuditLog schema (src/unnamed/part_004). -/
inductive AuditAction where
  | uploaded
  | field_added
  | field_modified
  | field_deleted
  | signed
  | downloaded
deriving DecidableEq

/-- An audit record: the action and the optional digest pair.  Digests are
modelled as natural numbers produced by an arbitrary deterministic hash
function over the document bytes (`calculateHash` in
src/backend/utils/hashUtils.js is SHA-256 of the exact byte sequence; every
chain property proved below holds for any deterministic digest function). -/
structure AuditRecord where
  action : AuditAction
  documentHashBefore : Option Nat
  documentHashAfter : Option Nat
deriving DecidableEq

/-- The document status enum (src/backend/models/Document.js). -/
inductive DocStatus where
  | draft
  | pending_signature
  | signed
  | completed
deriving DecidableEq

/-- The per-document persistent state the routes touch: the stored original
bytes, the document record's mutable columns, the field collection, the
append-ordered audit log, and the directory of signed artifacts. -/
structure SystemState where
  docBytes : List Nat
  status : DocStatus
  signedFileUrl : Option Nat
  signedHash : Option Nat
  fields : List FieldRec
  auditLog : List AuditRecord
  signedFiles : List (List Nat)
deriving DecidableEq

/-- Embedding of POST /api/documents/upload (src/backend/routes/documents.js
lines 40-110): store the bytes, create the document record with status
draft, and append an `uploaded` audit record whose `documentHashAfter` is
the digest of the uploaded bytes (no `documentHashBefore`). -/
def uploadDocument (calculateHash : List Nat → Nat) (pdfBuffer : List Nat) :
    SystemState :=
  { docBytes := pdfBuffer,
    status := .draft,
    signedFileUrl := none,
    signedHash := none,
    fields := [],
    auditLog := [{ action := .uploaded, documentHashBefore := none,
                   documentHashAfter := some (calculateHash pdfBuffer) }],
    signedFiles := [] }

/-- The mutating field operations of src/backend/routes/fields.js.  A create
carries the request's type/position/required flag (the created field has no
value yet); an update carries a replacement position (label/required updates
never touch the audit digests or the document bytes); setValue is
POST /api/fields/:id/value. -/
inductive FieldOp where
  | create (fieldType : FieldType) (position : FieldPosition) (req : Bool)
  | update (i : ℕ) (position : FieldPosition)
  | remove (i : ℕ)
  | setValue (i : ℕ) (v : Nat)
deriving DecidableEq

/-- Embedding of the field routes: create validates the position, stores the
field, sets the document status to pending_signature and appends a
`field_added` record (no digests); update validates and replaces the
position and appends `field_modified`; remove deletes the field and appends
`field_deleted`; setValue stores the value and appends nothing.  A rejected
request (validation failure or unknown field id) leaves the state
unchanged.  None of these operations touch the stored document bytes. -/
def applyFieldOp (op : FieldOp) (s : SystemState) : SystemState :=
  match op with
  | .create fieldType position req =>
      if positionOutOfRange position then s
      else
        { s with
            fields := s.fields ++ [⟨fieldType, position, none, req⟩],
            status := .pending_signature,
            auditLog := s.auditLog ++
              [{ action := .field_added, documentHashBefore := none,
                 documentHashAfter := none }] }
  | .update i position =>
      if h : i < s.fields.length then
        if positionOutOfRange position then s
        else
          { s with
              fields := s.fields.set i { s.fields[i] with position := position },
              auditLog := s.auditLog ++
                [{ action := .field_modified, documentHashBefore := none,
                   documentHashAfter := none }] }
      else s
  | .remove i =>
      if i < s.fields.length then
        { s with
            fields := s.fields.eraseIdx i,
            auditLog := s.auditLog ++
              [{ action := .field_deleted, documentHashBefore := none,
                 documentHashAfter := none }] }
      else s
  | .setValue i v =>
      if h : i < s.fields.length then
        { s with fields := s.fields.set i { s.fields[i] with value := some v } }
      else s

/-- A sequence of field operations applied in request order. -/
def applyFieldOps (ops : List FieldOp) (s : SystemState) : SystemState :=
  ops.foldl (fun t op => applyFieldOp op t) s

/-- The signing errors of POST /api/sign-pdf: the 400 for a document with no
valued fields, and the 500 produced by the catch block when an embed
throws. -/
inductive SignError where
  | noSignedFields
  | embedFailed
deriving DecidableEq

/-- The fields the signing route processes:
`Field.find({documentId, value: {$exists: true, $ne: null}})`. -/
def valuedFields (s : SystemState) : List FieldRec :=
  s.fields.filter (fun f => f.value.isSome)

/-- The field-embedding loop of POST /api/sign-pdf (step 6): each field is
embedded in order and a failing embed (e.g. an undecodable image asset in
`embedImage`) throws, aborting the loop.  Whether an individual field's
embed succeeds is abstracted by `embedOk`; the drawing itself only mutates
the in-memory pdf-lib document, so it does not appear in the persistent
state. -/
def embedLoop (embedOk : FieldRec → Bool) : List FieldRec → Except SignError Unit
  | [] => .ok ()
  | f :: rest => if embedOk f then embedLoop embedOk rest else .error .embedFailed

/-- Embedding of POST /api/sign-pdf (src/backend/routes/documents.js lines
194-308).  `renderDoc` abstracts pdf-lib's save of the document mutated by
the embedding pass.  All persistent writes — the signed artifact (step 9),
the document record update (step 10) and the `signed` audit record
(step 11) — happen only after every field has embedded; a thrown embed
error reaches the catch block first, which returns a 500 having mutated
nothing. -/
def signPdf (calculateHash : List Nat → Nat)
    (renderDoc : List Nat → List FieldRec → List Nat)
    (embedOk : FieldRec → Bool) (s : SystemState) :
    SystemState × Option SignError :=
  let fields := valuedFields s
  if fields.isEmpty then (s, some .noSignedFields)
  else
    match embedLoop embedOk fields with
    | .error e => (s, some e)
    | .ok _ =>
        let hashBefore := calculateHash s.docBytes
        let signedPdfBytes := renderDoc s.docBytes fields
        let hashAfter := calculateHash signedPdfBytes
        ({ s with
            status := .signed,
            signedFileUrl := some s.signedFiles.length,
            signedHash := some hashAfter,
            signedFiles := s.signedFiles ++ [signedPdfBytes],
            auditLog := s.auditLog ++
              [{ action := .signed, documentHashBefore := some hashBefore,
                 documentHashAfter := some hashAfter }] }, none)

/-- True when an audit record carries at least one digest. -/
def hasDigest (r : AuditRecord) : Bool :=
  r.documentHashBefore.isSome || r.documentHashAfter.isSome

/-- Link between two digest-carrying records: when the earlier record has a
`documentHashAfter` and the later one a `documentHashBefore`, the two
digests agree. -/
def chainLinkB (r r' : AuditRecord) : Bool :=
  match r.documentHashAfter, r'.documentHashBefore with
  | some a, some b => decide (a = b)
  | _, _ => true

/-- Chain integrity of an append-ordered audit log: adjacent pairs among the
digest-carrying records are linked (records without digests — the field
events — do not break adjacency). -/
def auditChainOk (log : List AuditRecord) : Prop :=
  List.Chain' (fun r r' => chainLinkB r r' = true) (log.filter hasDigest)

/-- Helper: the embedding loop fails whenever some field in the list fails
to embed. -/
theorem embedLoop_mem_failure (embedOk : FieldRec → Bool) (f : FieldRec)
    (hfail : embedOk f = false) :
    ∀ l : List FieldRec, f ∈ l → embedLoop embedOk l = .error .embedFailed := by
  intro l
  induction l with
  | nil => intro hf; cases hf
  | cons g rest ih =>
      intro hf
      simp only [embedLoop]
      by_cases hg : embedOk g = true
      · rw [if_pos hg]
        rcases List.mem_cons.mp hf with hfg | hmem
        · rw [hfg, hg] at hfail; cases hfail
        · exact ih hmem
      · rw [if_neg hg]

/-- C10: if any single valued field fails to embed, the whole signing
operation returns an error and the persistent state is completely
unchanged — the signed artifact directory, the document record's status,
signedFileUrl and signedHash, and the audit log (in particular, no `signed`
record is appended).  A partially-signed artifact is never produced. -/
theorem signPdf_aborts_on_embed_failure (calculateHash : List Nat → Nat)
    (renderDoc : List Nat → List FieldRec → List Nat)
    (embedOk : FieldRec → Bool) (s : SystemState) (f : FieldRec)
    (hf : f ∈ valuedFields s) (hfail : embedOk f = false) :
    signPdf calculateHash renderDoc embedOk s = (s, some SignError.embedFailed) ∧
    (signPdf calculateHash renderDoc embedOk s).1.status = s.status ∧
    (signPdf calculateHash renderDoc embedOk s).1.signedFileUrl = s.signedFileUrl ∧
    (signPdf calculateHash renderDoc embedOk s).1.signedHash = s.signedHash ∧
    (signPdf calculateHash renderDoc embedOk s).1.signedFiles = s.signedFiles ∧
    (signPdf calculateHash renderDoc embedOk s).1.auditLog = s.auditLog := by
  have hne : (valuedFields s).isEmpty = false := by
    cases h : valuedFields s with
    | nil => rw [h] at hf; cases hf
    | cons a l => rfl
  have hloop := embedLoop_mem_failure embedOk f hfail (valuedFields s) hf
  have hmain : signPdf calculateHash renderDoc embedOk s =
      (s, some SignError.embedFailed) := by
    simp [signPdf, hne, hloop]
  exact ⟨hmain, by rw [hmain], by rw [hmain], by rw [hmain], by rw [hmain],
    by rw [hmain]⟩

/-- A concrete valued signature field used by the witnesses. -/
def sampleField : FieldRec :=
  ⟨.signature, ⟨1, 0, 0, 1, 1⟩, some 5, true⟩

/-- A concrete state holding one valued field, as reached after an upload,
a field creation and a value assignment. -/
def sampleState : SystemState :=
  { docBytes := [3],
    status := .pending_signature,
    signedFileUrl := none,
    signedHash := none,
    fields := [sampleField],
    auditLog := [{ action := .uploaded, documentHashBefore := none,
                   documentHashAfter := some 1 },
                 { action := .field_added, documentHashBefore := none,
                   documentHashAfter := none }],
    signedFiles := [] }

/-- C10 witness: with an embed that always fails, signing the sample state
returns the embed error and the state untouched. -/
theorem signPdf_aborts_witness :
    signPdf (fun b => b.length) (fun b _fs => b) (fun _f => false) sampleState =
      (sampleState, some SignError.embedFailed) ∧
    (signPdf (fun b => b.length) (fun b _fs => b) (fun _f => false)
        sampleState).1.status = sampleState.status ∧
    (signPdf (fun b => b.length) (fun b _fs => b) (fun _f => false)
        sampleState).1.signedFileUrl = sampleState.signedFileUrl ∧
    (signPdf (fun b => b.length) (fun b _fs => b) (fun _f => false)
        sampleState).1.signedHash = sampleState.signedHash ∧
    (signPdf (fun b => b.length) (fun b _fs => b) (fun _f => false)
        sampleState).1.signedFiles = sampleState.signedFiles ∧
    (signPdf (fun b => b.length) (fun b _fs => b) (fun _f => false)
        sampleState).1.auditLog = sampleState.auditLog :=
  signPdf_aborts_on_embed_failure (fun b => b.length) (fun b _fs => b)
    (fun _f => false) sampleState sampleField (by decide) rfl

/-- Helper: no field operation touches the stored document bytes, and each
one either leaves the audit log alone or appends a single record carrying
no digests. -/
theorem applyFieldOp_shape (op : FieldOp) (s : SystemState) :
    (applyFieldOp op s).docBytes = s.docBytes ∧
    ((applyFieldOp op s).auditLog = s.auditLog ∨
      ∃ a, (applyFieldOp op s).auditLog =
        s.auditLog ++ [⟨a, none, none⟩]) := by
  cases op <;> simp only [applyFieldOp] <;> (try split_ifs) <;>
    first
      | exact ⟨rfl, Or.inl rfl⟩
      | exact ⟨rfl, Or.inr ⟨_, rfl⟩⟩

/-- Helper: after an upload followed by any sequence of field operations,
the document bytes are still the uploaded bytes and the audit log is the
`uploaded` record (hashAfter = digest of the uploaded bytes) followed only
by records carrying no digests. -/
theorem applyFieldOps_invariant (pdfBuffer : List Nat) (h0 : Nat)
    (ops : List FieldOp) (s : SystemState)
    (hbytes : s.docBytes = pdfBuffer)
    (hlog : ∃ rest, s.auditLog =
        ⟨.uploaded, none, some h0⟩ :: rest ∧
      ∀ r ∈ rest, r.documentHashBefore = none ∧ r.documentHashAfter = none) :
    (applyFieldOps ops s).docBytes = pdfBuffer ∧
    ∃ rest, (applyFieldOps ops s).auditLog =
        ⟨.uploaded, none, some h0⟩ :: rest ∧
      ∀ r ∈ rest, r.documentHashBefore = none ∧ r.documentHashAfter = none := by
  induction ops generalizing s with
  | nil => exact ⟨hbytes, hlog⟩
  | cons op rest ih =>
      simp only [applyFieldOps, List.foldl_cons]
      have hshape := applyFieldOp_shape op s
      apply ih
      · rw [hshape.1, hbytes]
      · obtain ⟨tail, hlogeq, htail⟩ := hlog
        rcases hshape.2 with heq | ⟨a, heq⟩
        · exact ⟨tail, by rw [heq, hlogeq], htail⟩
        · refine ⟨tail ++ [⟨a, none, none⟩], by rw [heq, hlogeq]; rfl, ?_⟩
          intro r hr
          rcases List.mem_append.mp hr with hmem | hmem
          · exact htail r hmem
          · simp only [List.mem_singleton] at hmem
            rw [hmem]
            exact ⟨rfl, rfl⟩

/-- C2: a document that is uploaded and then signed after any sequence of
field operations (none of which modify the stored bytes) has a `signed`
audit record carrying both digests, its `documentHashBefore` equal to the
`uploaded` record's `documentHashAfter` (both are the digest of the
uploaded bytes), and the whole append-ordered audit log satisfies the
chain property: adjacent digest-carrying records agree, the intervening
field records carrying no digests. -/
theorem signed_audit_chain (calculateHash : List Nat → Nat)
    (renderDoc : List Nat → List FieldRec → List Nat)
    (embedOk : FieldRec → Bool) (pdfBuffer : List Nat) (ops : List FieldOp)
    (hsign : (signPdf calculateHash renderDoc embedOk
        (applyFieldOps ops (uploadDocument calculateHash pdfBuffer))).2 = none) :
    ∃ ha,
      (signPdf calculateHash renderDoc embedOk
          (applyFieldOps ops (uploadDocument calculateHash pdfBuffer))).1.auditLog.head? =
        some ⟨.uploaded, none, some (calculateHash pdfBuffer)⟩ ∧
      (signPdf calculateHash renderDoc embedOk
          (applyFieldOps ops (uploadDocument calculateHash pdfBuffer))).1.auditLog.getLast? =
        some ⟨.signed, some (calculateHash pdfBuffer), some ha⟩ ∧
      auditChainOk (signPdf calculateHash renderDoc embedOk
          (applyFieldOps ops (uploadDocument calculateHash pdfBuffer))).1.auditLog := by
  obtain ⟨hbytes, rest, hlogeq, hrest⟩ :=
    applyFieldOps_invariant pdfBuffer (calculateHash pdfBuffer) ops
      (uploadDocument calculateHash pdfBuffer) rfl
      ⟨[], rfl, by intro r hr; cases hr⟩
  by_cases hemp : (valuedFields
      (applyFieldOps ops (uploadDocument calculateHash pdfBuffer))).isEmpty = true
  · exfalso
    simp [signPdf, hemp] at hsign
  · have hemp' : (valuedFields
        (applyFieldOps ops (uploadDocument calculateHash pdfBuffer))).isEmpty = false :=
      Bool.not_eq_true _ ▸ eq_false_of_ne_true hemp
    cases hE : embedLoop embedOk
        (valuedFields (applyFieldOps ops (uploadDocument calculateHash pdfBuffer))) with
    | error e =>
        exfalso
        simp [signPdf, hemp', hE] at hsign
    | ok u =>
        have hlog2 : (signPdf calculateHash renderDoc embedOk
            (applyFieldOps ops (uploadDocument calculateHash pdfBuffer))).1.auditLog =
            (applyFieldOps ops (uploadDocument calculateHash pdfBuffer)).auditLog ++
              [⟨.signed,
                some (calculateHash
                  (applyFieldOps ops (uploadDocument calculateHash pdfBuffer)).docBytes),
                some (calculateHash (renderDoc
                  (applyFieldOps ops (uploadDocument calculateHash pdfBuffer)).docBytes
                  (valuedFields
                    (applyFieldOps ops (uploadDocument calculateHash pdfBuffer)))))⟩] := by
          simp [signPdf, hemp', hE]
        refine ⟨calculateHash (renderDoc
            (applyFieldOps ops (uploadDocument calculateHash pdfBuffer)).docBytes
            (valuedFields (applyFieldOps ops (uploadDocument calculateHash pdfBuffer)))),
          ?_, ?_, ?_⟩
        · rw [hlog2, hlogeq, hbytes]
          rfl
        · rw [hlog2, hlogeq, hbytes, List.getLast?_concat]
        · have hfilterRest : rest.filter hasDigest = [] := by
            rw [List.filter_eq_nil_iff]
            intro r hr
            have := hrest r hr
            simp [hasDigest, this.1, this.2]
          rw [auditChainOk, hlog2, hlogeq, hbytes]
          rw [List.filter_append, List.filter_cons]
          rw [hfilterRest]
          simp [hasDigest, chainLinkB]

/-- C2 witness: upload the bytes [3] (digest: the length, 1), create a
signature field, set its value, sign with an always-succeeding embed; the
resulting audit log is uploaded-(none, 1), field_added-(none, none),
signed-(1, ha) and the chain holds. -/
theorem signed_audit_chain_witness :
    ∃ ha,
      (signPdf (fun b => b.length) (fun b _fs => b ++ [7]) (fun _f => true)
          (applyFieldOps
            [FieldOp.create .signature ⟨1, 0, 0, 1, 1⟩ true, FieldOp.setValue 0 5]
            (uploadDocument (fun b => b.length) [3]))).1.auditLog.head? =
        some ⟨.uploaded, none, some 1⟩ ∧
      (signPdf (fun b => b.length) (fun b _fs => b ++ [7]) (fun _f => true)
          (applyFieldOps
            [FieldOp.create .signature ⟨1, 0, 0, 1, 1⟩ true, FieldOp.setValue 0 5]
            (uploadDocument (fun b => b.length) [3]))).1.auditLog.getLast? =
        some ⟨.signed, some 1, some ha⟩ ∧
      auditChainOk
        (signPdf (fun b => b.length) (fun b _fs => b ++ [7]) (fun _f => true)
          (applyFieldOps
            [FieldOp.create .signature ⟨1, 0, 0, 1, 1⟩ true, FieldOp.setValue 0 5]
            (uploadDocument (fun b => b.length) [3]))).1.auditLog :=
  signed_audit_chain (fun b => b.length) (fun b _fs => b ++ [7]) (fun _f => true)
    [3] [FieldOp.create .signature ⟨1, 0, 0, 1, 1⟩ true, FieldOp.setValue 0 5]
    (by decide)
